import Mathlib

/-!
Verification of the 5ULTRA variant-effect annotation engine.

The definitions below are a shallow embedding of the Python sources
`5ULTRA/scripts/detection.py`, `scripts/Spliceai-2.py` and
`scripts/Spliceai-3.py`.  DNA sequences (Python `str`) are modelled as
`List Char`; Python integers as `Int`; Python string slicing, including
negative indices and clamping, is modelled by `pyslice`.  Strength
labels stay `String` as in the source.  Where the source sorts an exon
list in place before walking it, the corresponding theorem carries a
sortedness hypothesis under which the in-place sort is the identity, and
the embedded function walks the list as given.
-/

namespace FiveULTRA

/-- Python slice `s[a:b]` with full negative-index and clamping
semantics: a negative bound counts from the end of the string, both
bounds are clamped into `[0, len]`, and an empty slice results when the
resolved stop does not exceed the resolved start. -/
def pyslice (s : List Char) (a b : Int) : List Char :=
  let n : Int := s.length
  let a' : Int := if a < 0 then max (n + a) 0 else min a n
  let b' : Int := if b < 0 then max (n + b) 0 else min b n
  (s.take b'.toNat).drop a'.toNat

/-- Python slice `s[a:]` (stop bound omitted, hence the string length). -/
def pysliceFrom (s : List Char) (a : Int) : List Char :=
  pyslice s a s.length

/-- The lookup `BASE_PAIRING.get(nuc, default N)` from `detection.py`:
complement table with `N` for unrecognized bases. -/
def basePair (c : Char) : Char :=
  if c = 'A' then 'T'
  else if c = 'T' then 'A'
  else if c = 'G' then 'C'
  else if c = 'C' then 'G'
  else if c = 'N' then 'N'
  else if c = '*' then '*'
  else 'N'

/-- The function `rev_seq` from `detection.py`: reverse complement of a
sequence. -/
def rev_seq (fwd_seq : List Char) : List Char :=
  fwd_seq.reverse.map basePair

/-- The loop body of `calculate_distance_from_five_cap`: walk the exon
list (already in transcript order), accumulating full exon lengths for
exons upstream of `position` and a partial offset (with `break`) inside
the exon containing it. -/
def distLoop (strand : String) (position : Int) : List (Int × Int) → Int
  | [] => 0
  | (s, e) :: rest =>
    if (strand = "+" ∧ e < position) ∨ (strand = "-" ∧ s > position) then
      (e - s + 1) + distLoop strand position rest
    else if (strand = "+" ∧ s < position) ∨ (strand = "-" ∧ e > position) then
      (if strand = "+" then position - s else e - position)
    else
      distLoop strand position rest

/-- The function `calculate_distance_from_five_cap(exons, strand, position)` from
`detection.py`.  The source first sorts `exons` ascending by start; the
embedding takes the sorted list (the theorems supply a sortedness
hypothesis, under which the sort is the identity) and walks it in
transcript order: as given for `+`, reversed for `-`. -/
def calculate_distance_from_five_cap (exons : List (Int × Int)) (strand : String)
    (position : Int) : Int :=
  distLoop strand position (if strand = "+" then exons else exons.reverse)

/-- The loop of `calculate_genomic_position_from_five_cap`, carrying the
last visited exon because the Python loop variable outlives the loop and
is reused by the extrapolation return after the final iteration. -/
def genLoop (strand : String) : List (Int × Int) → Int → Int × Int → Int
  | [], remaining, (ls, le) =>
      if strand = "+" then ls + remaining else le - remaining
  | (s, e) :: rest, remaining, _ =>
      if remaining ≤ e - s + 1 then
        (if strand = "+" then s + remaining else e - remaining)
      else
        genLoop strand rest (remaining - (e - s + 1)) (s, e)

/-- The function `calculate_genomic_position_from_five_cap` from `detection.py` (same sortedness convention as the distance
function; the initial carry is irrelevant on every nonempty exon list). -/
def calculate_genomic_position_from_five_cap (exons : List (Int × Int)) (strand : String)
    (distance : Int) : Int :=
  genLoop strand (if strand = "+" then exons else exons.reverse) distance (0, 0)

/-- The function `calculate_kozak_strength` from `detection.py`: empty or
shorter-than-9 contexts are unknown (the empty label); otherwise the strength is
decided by position 1 and the second-to-last position. -/
def calculate_kozak_strength (kozak_sequence : List Char) : String :=
  if kozak_sequence = [] ∨ kozak_sequence.length < 9 then ""
  else
    let c1 := kozak_sequence.getD 1 ' '
    let c2 := kozak_sequence.getD (kozak_sequence.length - 2) ' '
    if (c1 = 'A' ∨ c1 = 'G') ∧ c2 = 'G' then "Strong"
    else if (c1 = 'A' ∨ c1 = 'G') ∨ c2 = 'G' then "Adequate"
    else "Weak"

/-- The function `calculate_kozak_strength` from `Spliceai-3.py`: the same rule but
with no length guard, only the emptiness test.  (On a context of length
1 the Python original raises `IndexError` at `kozak_sequence[1]`; that
case is modelled by the `getD` default, which classifies as `Weak` —
no claim touches it.) -/
def spliceai3_calculate_kozak_strength (kozak_sequence : List Char) : String :=
  if kozak_sequence = [] then ""
  else
    let c1 := kozak_sequence.getD 1 ' '
    let c2 := kozak_sequence.getD (kozak_sequence.length - 2) ' '
    if (c1 = 'A' ∨ c1 = 'G') ∧ c2 = 'G' then "Strong"
    else if (c1 = 'A' ∨ c1 = 'G') ∨ c2 = 'G' then "Adequate"
    else "Weak"

/-- The mutated-sequence construction from `detection.py`
(`process_variant`, the `mutatedSequence = ...` line): splice the
alternate allele (reverse-complemented on the minus strand) over
`len(ref)` characters of the wild-type sequence at the relative
position. -/
def mutate (wtSEQ : List Char) (relativePosition : Int) (ref alt : List Char)
    (strand : String) : List Char :=
  pyslice wtSEQ 0 relativePosition
    ++ (if strand = "+" then alt else rev_seq alt)
    ++ pysliceFrom wtSEQ (relativePosition + ref.length)

/-- Leading-segment match: `leadMatch pat l` holds when `l` starts with
`pat`. -/
def leadMatch : List Char → List Char → Bool
  | [], _ => true
  | _ :: _, [] => false
  | p :: ps, c :: cs => p = c && leadMatch ps cs

/-- Python membership `pat in s` for strings: contiguous-substring test. -/
def containsSub (pat : List Char) : List Char → Bool
  | [] => leadMatch pat []
  | c :: rest => leadMatch pat (c :: rest) || containsSub pat rest

/-- The codon `ATG` as a character list. -/
def ATG : List Char := ['A', 'T', 'G']

/-- The test `s in STOP_CODONS` from `detection.py`. -/
def isStopCodon (s : List Char) : Bool :=
  s = ['T', 'A', 'A'] || s = ['T', 'A', 'G'] || s = ['T', 'G', 'A']

/-- Bounded search for the start-scanning loop of `uStart_gain`
(the `while` loop stepping `uORF_START` by 1 until the 3-character slice
equals `ATG`):
step `k` probes index `start + k`. -/
def findATGAux (s : List Char) (start : Int) : Nat → Option Int
  | 0 => none
  | fuel + 1 =>
      if pyslice s start (start + 3) = ATG then some start
      else findATGAux s (start + 1) fuel

/-- The start-scanning loop of `uStart_gain`, as a total function:
`some j` is the index at which the Python loop stops, `none` means the
loop never finds an `ATG` and diverges.  Any index whose 3-character
slice can equal `ATG` is below `s.length`, so the bound
`(s.length - start).toNat` covers every candidate. -/
def findATGFrom (s : List Char) (start : Int) : Option Int :=
  findATGAux s start ((s.length - start).toNat)

/-- The stop-scanning loop
(the `while` loop stepping by 3 until a stop codon or the sequence length
is reached),
with explicit fuel; the wrapper `scanStop` supplies enough fuel for the
loop to have exited. -/
def scanStopAux (s : List Char) : Nat → Int → Int
  | 0, e => e
  | fuel + 1, e =>
      if ¬ isStopCodon (pyslice s e (e + 3)) ∧ e < s.length then
        scanStopAux s fuel (e + 3)
      else e

/-- The in-frame stop scan: steps forward by 3 from `e` until the
3-character slice is a stop codon or the index reaches the sequence
length.  The index grows by 3 each step, so `(len - e).toNat + 1` steps
always suffice for the exit condition to fire. -/
def scanStop (s : List Char) (e : Int) : Int :=
  scanStopAux s ((s.length - e).toNat + 1) e

/-- The fields of the row returned by `uStart_gain` in `detection.py`
that are internal to the engine, plus the relative start/stop positions
the function computes them from.  The two conservation-score means are
calls to the external tabix oracle (outside the engine) and are
not modelled. -/
structure CreatedUORF where
  relStart : Int
  relEnd : Int
  startGenomic : Int
  endGenomic : Int
  distToMainStart : Int
  stopCodon : List Char
  uORF_TYPE : String
  kozakContext : List Char
  kozakStrength : String
  uORF_LENGTH : Int
  deriving Repr, DecidableEq

/-- The function `uStart_gain` from `detection.py`.  A `none` result models
divergence of the start-scanning loop (the guard at the call site rules
that out, see the scan-termination theorem); on `some`, all fields are computed exactly as in the
source. -/
def uStart_gain (relativePosition : Int) (mutatedSequence : List Char) (startPOS : Int)
    (STRAND : String) (exons : List (Int × Int)) : Option CreatedUORF :=
  match findATGFrom mutatedSequence (relativePosition - 2) with
  | none => none
  | some uORF_START =>
    let uORF_END := scanStop mutatedSequence (uORF_START + 3) + 2
    let uSTOP_CODON := pyslice mutatedSequence (uORF_END - 2) (uORF_END + 1)
    let uORF_TYPE :=
      if uORF_END < startPOS then "Non-Overlapping"
      else if (startPOS - uORF_START) % 3 = 0 then "N-terminal extension"
      else "Overlapping"
    let uKOZAK := pyslice mutatedSequence (uORF_START - 4) (uORF_START + 5)
    let uORF_LENGTH :=
      if uORF_TYPE ≠ "N-terminal extension" then uORF_END - uORF_START + 1
      else startPOS - uORF_START
    some {
      relStart := uORF_START
      relEnd := uORF_END
      startGenomic := calculate_genomic_position_from_five_cap exons STRAND uORF_START
      endGenomic := calculate_genomic_position_from_five_cap exons STRAND uORF_END
      distToMainStart := startPOS - uORF_START
      stopCodon := uSTOP_CODON
      uORF_TYPE := uORF_TYPE
      kozakContext := uKOZAK
      kozakStrength := calculate_kozak_strength uKOZAK
      uORF_LENGTH := uORF_LENGTH }

/-- The `KOZAK_STRENGTH` ordinal table from `detection.py`.  The empty
label maps to `nan` in the source; `none` models it (every `nan` comparison is
false, as is every comparison against it).  A label outside the table
raises `KeyError` in Python; that is only reachable from corrupt
reference data and is modelled by `none` as well. -/
def KOZAK_STRENGTH (s : String) : Option Int :=
  if s = "Weak" then some 0
  else if s = "Adequate" then some 1
  else if s = "Strong" then some 2
  else none

/-- A strict comparison under the `nan`-style semantics of `KOZAK_STRENGTH`. -/
def kozakLT (a b : Option Int) : Bool :=
  match a, b with
  | some x, some y => x < y
  | _, _ => false

/-- The transcript/UTR reference row of `detection.py`, restricted to
the indexed fields the classifier reads (`UTR[0]`, `UTR[1]`, `UTR[2]`,
`UTR[3]`, `UTR[6]`, `UTR[10]`, `UTR[11]`, `UTR[12]`, parsed `UTR[13]`,
`UTR[14]`); the remaining columns are only echoed into output rows. -/
structure UTRRec where
  chrom : String
  utrStart : Int
  utrEnd : Int
  strand : String
  transcript : String
  mKozakContext : List Char
  mKozakStrength : String
  wtSEQ : List Char
  exons : List (Int × Int)
  numUORFs : Int
  deriving Repr, DecidableEq

/-- The uORF reference row of `detection.py`, restricted to the indexed
fields the classifier reads (`uORF[8]`, `uORF[17]`, `uORF[18]`,
`uORF[19]`, `uORF[20]`, `uORF[22]`, `uORF[23]`). -/
structure UORFRec where
  absStart : Int
  offset : Int
  startCodon : List Char
  stopCodon : List Char
  utype : String
  kozakStrength : String
  ulength : Int
  deriving Repr, DecidableEq

/-- The uORF-annotation payload appended alongside each consequence tag.
The source appends a positional slice of the reference row (or the
`uStart_gain` result, or 15 empty strings); the constructors record
which row was sliced and the data the slice is built from. -/
inductive Anno where
  | blank : Anno
  | existing : UORFRec → Anno
  | transition : UORFRec → List Char → Anno
  | created : CreatedUORF → Anno
  deriving Repr, DecidableEq

/-- The three per-UTR accumulators of `process_variant`: `CSQ[0]`,
`CSQ[1]` and `uORFAnnotations`. -/
def T3 : Type := List String × List String × List Anno

instance : DecidableEq T3 := by unfold T3; infer_instance

/-- Concatenation of accumulator triples (each branch of the source
appends to the three lists separately). -/
def tcat (a b : T3) : T3 :=
  (a.1 ++ b.1, a.2.1 ++ b.2.1, a.2.2 ++ b.2.2)

/-- The empty accumulator triple. -/
def t3nil : T3 := ([], [], [])

/-- The uORF coordinate-shift block of `process_variant`
(`detection.py`): derive the relative start/stop from the stored
absolute start, offset and length, then shift them for insertions by
`len(ALT) - 1` (the start only when it sits at or after the edit) and
for deletions by `-(len(REF) - 1)` (the start only when it sits at or
after the deleted span). -/
def shiftedCoords (relativePosition : Int) (REF ALT : List Char) (u : UORFRec) :
    Int × Int :=
  let uSTART0 : Int := u.absStart - u.offset
  let uSTOP0 : Int := uSTART0 + u.ulength - 3
  let p1 : Int × Int :=
    if uSTOP0 ≥ relativePosition ∧ REF.length < ALT.length then
      ((if uSTART0 ≥ relativePosition then uSTART0 + ALT.length - 1 else uSTART0),
        uSTOP0 + ALT.length - 1)
    else (uSTART0, uSTOP0)
  if p1.2 ≥ relativePosition + REF.length ∧ ALT.length < REF.length then
    ((if p1.1 ≥ relativePosition + REF.length then p1.1 - (REF.length - 1) else p1.1),
      p1.2 - (REF.length - 1))
  else p1

/-- The `uKozak` tail of the per-uORF analysis (`detection.py` and
`Spliceai-3.py`, identical): when the variant sits at one of the three
diagnostic offsets from the uORF start, reclassify the mutated context
and emit on a strict ordinal change (a weaker uORF Kozak is reported as
`increased` main translation and vice versa). -/
def uKozakRows (relativePosition uSTART : Int) (mutatedSequence : List Char)
    (u : UORFRec) : T3 :=
  if uSTART - 1 = relativePosition ∨ relativePosition = uSTART - 3 ∨
      relativePosition = uSTART + 3 then
    let newKOZAK := pyslice mutatedSequence (uSTART - 4) (uSTART + 5)
    let s0 := calculate_kozak_strength newKOZAK
    let s := if s0 = "" then u.kozakStrength else s0
    if kozakLT (KOZAK_STRENGTH s) (KOZAK_STRENGTH u.kozakStrength) then
      (["uKozak"], ["increased"], [Anno.existing u])
    else if kozakLT (KOZAK_STRENGTH u.kozakStrength) (KOZAK_STRENGTH s) then
      (["uKozak"], ["decreased"], [Anno.existing u])
    else t3nil
  else t3nil

/-- The `uStop_loss` transition block of `detection.py`
(`process_variant`): reached when the rescanned stop `codon` is later
than the (shifted) old stop of a `Non-Overlapping` uORF; branches on
`codon >= startPOS and (codon - startPOS) % 3 == 0`, then
`codon >= startPOS`, else the longer-Non-Overlapping case. -/
def uStopLossRows (codon uSTOP startPOS : Int) (u : UORFRec)
    (newStop : List Char) : T3 :=
  if codon > uSTOP ∧ u.utype = "Non-Overlapping" then
    if startPOS ≤ codon ∧ (codon - startPOS) % 3 = 0 then
      (["uStop_loss to N-terminal extension"], ["N-terminal extension"],
        [Anno.transition u newStop])
    else if startPOS ≤ codon then
      (["uStop_loss to Overlapping"], ["decreased"], [Anno.transition u newStop])
    else
      (["uStop_loss longer Non-Overlapping"], ["decreased"], [Anno.transition u newStop])
  else t3nil

/-- The `uStop_loss` transition block of `Spliceai-3.py`
(`process_variant`): same guard, but the in-frame branch tests only
`(codon - startPOS) % 3 == 0` with no position comparison, and the
Overlapping branch tests `codon + 2 > startPOS`. -/
def spliceai3_uStopLossRows (codon uSTOP startPOS : Int) (u : UORFRec)
    (newStop : List Char) : T3 :=
  if codon > uSTOP ∧ u.utype = "Non-Overlapping" then
    if (codon - startPOS) % 3 = 0 then
      (["uStop_loss to N-terminal extension"], ["N-terminal extension"],
        [Anno.transition u newStop])
    else if codon + 2 > startPOS then
      (["uStop_loss to Overlapping"], ["decreased"], [Anno.transition u newStop])
    else
      (["uStop_loss longer Non-Overlapping"], ["decreased"], [Anno.transition u newStop])
  else t3nil

/-- The `uStop_gain` block shared verbatim by `detection.py` and
`Spliceai-3.py`: reached when the rescanned stop is earlier than the old
stop and upstream of the main start.  The `Overlapping` and shorter
`Non-Overlapping` cases `continue` (no further rows for this uORF); the
`N-terminal extension` case falls through, where the loss guard is
necessarily false, leaving only the `uKozak` tail. -/
def uStopGainRows (relativePosition uSTART : Int) (mutatedSequence : List Char)
    (u : UORFRec) (newStop : List Char) : T3 :=
  if u.utype = "Overlapping" then
    (["uStop_gain to Non-Overlapping"], ["increased"], [Anno.transition u newStop])
  else if u.utype = "N-terminal extension" then
    tcat (["uStop_gain to Non-Overlapping"], ["decreased"], [Anno.transition u newStop])
      (uKozakRows relativePosition uSTART mutatedSequence u)
  else
    (["uStop_gain shorter Non-Overlapping"], ["increased"], [Anno.transition u newStop])

/-- One iteration of the per-uORF loop of `process_variant`
(`detection.py`): coordinate shift, window admission, `uStart_loss`
short-circuit, in-frame stop rescan, `uStop_gain`/`uStop_loss`
transition, `uKozak` tail. -/
def uorfStep (relativePosition startPOS : Int) (REF ALT mutatedSequence : List Char)
    (u : UORFRec) : T3 :=
  let sc := shiftedCoords relativePosition REF ALT u
  let uSTART := sc.1
  let uSTOP := sc.2
  if uSTART - 6 ≤ relativePosition ∧ relativePosition ≤ uSTOP + 2 then
    if pyslice mutatedSequence uSTART (uSTART + 3) ≠ u.startCodon ∧
        pyslice mutatedSequence uSTART (uSTART + 3) ≠ ATG then
      (["uStart_loss"], ["increased"], [Anno.existing u])
    else
      let codon := scanStop mutatedSequence uSTART
      let newStop := pyslice mutatedSequence codon (codon + 3)
      if codon < uSTOP ∧ codon + 2 < startPOS then
        uStopGainRows relativePosition uSTART mutatedSequence u newStop
      else
        tcat (uStopLossRows codon uSTOP startPOS u newStop)
          (uKozakRows relativePosition uSTART mutatedSequence u)
  else t3nil

/-- One iteration of the per-uORF loop of `Spliceai-3.py`
(`process_variant`): identical to `uorfStep` except for the
`uStop_loss` branch conditions. -/
def spliceai3_uorfStep (relativePosition startPOS : Int)
    (REF ALT mutatedSequence : List Char) (u : UORFRec) : T3 :=
  let sc := shiftedCoords relativePosition REF ALT u
  let uSTART := sc.1
  let uSTOP := sc.2
  if uSTART - 6 ≤ relativePosition ∧ relativePosition ≤ uSTOP + 2 then
    if pyslice mutatedSequence uSTART (uSTART + 3) ≠ u.startCodon ∧
        pyslice mutatedSequence uSTART (uSTART + 3) ≠ ATG then
      (["uStart_loss"], ["increased"], [Anno.existing u])
    else
      let codon := scanStop mutatedSequence uSTART
      let newStop := pyslice mutatedSequence codon (codon + 3)
      if codon < uSTOP ∧ codon + 2 < startPOS then
        uStopGainRows relativePosition uSTART mutatedSequence u newStop
      else
        tcat (spliceai3_uStopLossRows codon uSTOP startPOS u newStop)
          (uKozakRows relativePosition uSTART mutatedSequence u)
  else t3nil

/-- The relative-position computation of `process_variant`
(`detection.py`): the variant position itself on the plus strand for a
single-base reference, else the position of the last reference base. -/
def detectionRelativePosition (utr : UTRRec) (POS : Int) (REF : List Char) : Int :=
  if utr.strand = "+" ∧ REF.length = 1 then
    calculate_distance_from_five_cap utr.exons utr.strand POS
  else
    calculate_distance_from_five_cap utr.exons utr.strand (POS + REF.length - 1)

/-- The mutated sequence built by `process_variant` (`detection.py`). -/
def detectionMutatedSeq (utr : UTRRec) (POS : Int) (REF ALT : List Char) : List Char :=
  mutate utr.wtSEQ (detectionRelativePosition utr POS REF) REF ALT utr.strand

/-- The (shifted) relative main-start position of `process_variant`
(`detection.py`): distance to the stored far UTR boundary column, plus the
indel length delta. -/
def detectionStartPOS (utr : UTRRec) (REF ALT : List Char) : Int :=
  (if utr.strand = "+" then
    calculate_distance_from_five_cap utr.exons utr.strand utr.utrEnd
  else
    calculate_distance_from_five_cap utr.exons utr.strand utr.utrStart)
  + ALT.length - REF.length

/-- The `mKozak` block of `process_variant` (`detection.py`): when both
contexts have length 9 and one of the three diagnostic positions
changed, reclassify and emit on a strict ordinal change.  (The fallback
for an unknown reclassification reassigns the stored main context
`UTR[10]`, as the source does; it is dead under the length guard.) -/
def mKozakRows (mutatedSequence : List Char) (startPOS : Int) (utr : UTRRec) : T3 :=
  let newKOZAK := pyslice mutatedSequence (startPOS - 4) (startPOS + 5)
  if newKOZAK.length = 9 ∧ utr.mKozakContext.length = 9 then
    if utr.mKozakContext.getD (utr.mKozakContext.length - 2) ' '
          ≠ newKOZAK.getD (newKOZAK.length - 2) ' ' ∨
        utr.mKozakContext.getD 1 ' ' ≠ newKOZAK.getD 1 ' ' ∨
        utr.mKozakContext.getD 3 ' ' ≠ newKOZAK.getD 3 ' ' then
      let s0 := calculate_kozak_strength newKOZAK
      let s := if s0 = "" then String.mk utr.mKozakContext else s0
      tcat
        (if kozakLT (KOZAK_STRENGTH s) (KOZAK_STRENGTH utr.mKozakStrength) then
          (["mKozak"], ["decreased"], [Anno.blank])
        else t3nil)
        (if kozakLT (KOZAK_STRENGTH utr.mKozakStrength) (KOZAK_STRENGTH s) then
          (["mKozak"], ["increased"], [Anno.blank])
        else t3nil)
    else t3nil
  else t3nil

/-- The `uStart_gain` block of `process_variant` (`detection.py`): fires
when the mutated window around the edit contains an `ATG` the wild-type
window lacked; the direction is `N-terminal extension` exactly when the
discovered uORF is classified so.  The `none` branch of `uStart_gain` is
unreachable under the guard (the guard implies the start scan finds an
`ATG`; see the scan-termination theorem). -/
def uStartGainRows (relativePosition : Int) (wtSEQ mutatedSequence : List Char)
    (REF ALT : List Char) (startPOS : Int) (strand : String)
    (exons : List (Int × Int)) : T3 :=
  if containsSub ATG
        (pyslice mutatedSequence (relativePosition - 2)
          (relativePosition + ALT.length + 2)) ∧
      ¬ containsSub ATG
        (pyslice wtSEQ (relativePosition - 2) (relativePosition + REF.length + 2)) then
    match uStart_gain relativePosition mutatedSequence startPOS strand exons with
    | some g =>
        (["uStart_gain"],
          [if g.uORF_TYPE = "N-terminal extension" then "N-terminal extension"
            else "decreased"],
          [Anno.created g])
    | none => t3nil
  else t3nil

/-- The accumulator fold over the known uORFs of the transcript
(`detection.py`): each loop iteration appends its rows to the three
accumulators in order. -/
def uorfRows (relativePosition startPOS : Int) (REF ALT mutatedSequence : List Char)
    (uorfs : List UORFRec) : T3 :=
  uorfs.foldl
    (fun acc u => tcat acc (uorfStep relativePosition startPOS REF ALT mutatedSequence u))
    t3nil

/-- The per-(variant, UTR) evaluation of `process_variant`
(`detection.py`): admission (chromosome, strict UTR-boundary
containment, reference span inside a single exon), the mStart-loss
filter, then the `mKozak`, `uStart_gain` and per-uORF blocks.  The
result is the final value of the three accumulators `CSQ[0]`, `CSQ[1]`,
`uORFAnnotations`. -/
def processUTR (CHR : String) (POS : Int) (REF ALT : List Char) (utr : UTRRec)
    (uorfs : List UORFRec) : T3 :=
  if utr.chrom ≠ CHR ∨ ¬ (utr.utrStart < POS ∧ POS < utr.utrEnd) then t3nil
  else if ¬ utr.exons.any (fun ex =>
      ex.1 ≤ POS ∧ POS ≤ ex.2 ∧ ex.1 ≤ POS + REF.length - 1 ∧
        POS + REF.length - 1 ≤ ex.2) then t3nil
  else
    let relativePosition := detectionRelativePosition utr POS REF
    let mutatedSequence := detectionMutatedSeq utr POS REF ALT
    let startPOS := detectionStartPOS utr REF ALT
    if pyslice mutatedSequence startPOS (startPOS + 3) ≠ ATG then t3nil
    else
      tcat
        (tcat (mKozakRows mutatedSequence startPOS utr)
          (uStartGainRows relativePosition utr.wtSEQ mutatedSequence REF ALT startPOS
            utr.strand utr.exons))
        (if utr.numUORFs ≠ 0 then
          uorfRows relativePosition startPOS REF ALT mutatedSequence uorfs
        else t3nil)

/-- The emission loop at the end of `process_variant`: row `count` pairs
`CSQ[0][count]` with `CSQ[1][count]` and `uORFAnnotations[count]`. -/
def emitUTR (t : T3) : List (String × String × Anno) :=
  t.1.zip (t.2.1.zip t.2.2)

/-! ## Splice remapper (`Spliceai-2.py`)

SpliceAI scores are parsed with `float(...)` and compared against the
literal cutoff `0.2`; the embedding models them as exact rationals.  The
chromosome-prefix normalization and the pipe-splitting of the SpliceAI info
string happen before the logic modelled here and are taken as given
arguments. -/

/-- An intron reference row of `Spliceai-2.py`, restricted to the
indexed fields the remapper reads (`intron[1]`, `intron[2]`,
`intron[11]`). -/
structure IntronRec where
  istart : Int
  iend : Int
  seq : List Char
  deriving Repr, DecidableEq

/-- A synthetic variant emitted by the splice remapper.  `newPOS` is an
`Option` because the `DG_deletion_-` branch can emit the Python `None`
position.  The provenance columns (original variant id) are copied
strings and are not modelled. -/
structure SynthRow where
  newPOS : Option Int
  newREF : List Char
  newALT : List Char
  variantType : String
  deriving Repr, DecidableEq

/-- The constant `CUTOFF = 0.2` from `Spliceai-2.py`, written with an
explicit normalized representation (1/5) so that comparisons against it
are kernel-computable; `CUTOFF_eq_div` states the usual form. -/
def CUTOFF : ℚ := Rat.mk' 1 5 (by norm_num) (Nat.coprime_one_left 5)

/-- Python membership `POS in t` where `t` is a two-element exon list: list
membership, i.e. equality with one of the two boundary values (not
interval containment). -/
def exonBoundaryHit (exons : List (Int × Int)) (p : Int) : Bool :=
  exons.any (fun t => p = t.1 ∨ p = t.2)

/-- The generator lookup in `Spliceai-2.py` that returns `exons[i-1][1]`
for the first `i` in `range(1, len(exons))` with `exons[i][0] == pos`,
and `None` when there is none. -/
def findPrevExonEnd : List (Int × Int) → Int → Option Int
  | [], _ => none
  | [_], _ => none
  | a :: b :: rest, pos =>
      if b.1 = pos then some a.2 else findPrevExonEnd (b :: rest) pos

/-- The `AG` block on the plus strand (`Spliceai-2.py`), after its
cutoff and exon-boundary guards have passed. -/
def sa2AcceptorPlus (POS : Int) (REF ALT : List Char) (AG_POS AL_POS : Int)
    (utr : UTRRec) (introns : List IntronRec) : List SynthRow :=
  if AG_POS < AL_POS then
    introns.filterMap (fun intr =>
      if AL_POS = intr.iend then
        let newALT0 := pyslice intr.seq 0 1 ++ pyslice intr.seq (AG_POS - AL_POS - 1) (-1)
        let newALT :=
          if AG_POS ≤ POS ∧ POS ≤ AL_POS ∧ AG_POS ≤ POS + REF.length - 1 ∧
              POS + REF.length - 1 ≤ AL_POS then
            pyslice newALT0 0 (POS - AG_POS) ++ ALT ++
              pysliceFrom newALT0 (POS - AG_POS + REF.length - 1)
          else newALT0
        some { newPOS := some intr.istart, newREF := pyslice intr.seq 0 1,
               newALT := newALT, variantType := "AG_insertion_+" }
      else none)
  else if AG_POS > AL_POS then
    let new := calculate_distance_from_five_cap utr.exons utr.strand AG_POS
    let old := calculate_distance_from_five_cap utr.exons utr.strand AL_POS
    match findPrevExonEnd utr.exons AL_POS with
    | some p =>
        if p ≠ 0 then
          [{ newPOS := some p, newREF := pyslice utr.wtSEQ (old - 1) new,
             newALT := pyslice utr.wtSEQ (old - 1) old, variantType := "AG_deletion_+" }]
        else []
    | none => []
  else []

/-- The `DG` block on the plus strand (`Spliceai-2.py`), after its
cutoff and exon-boundary guards have passed. -/
def sa2DonorPlus (POS : Int) (REF ALT : List Char) (DG_POS DL_POS : Int)
    (utr : UTRRec) (introns : List IntronRec) : List SynthRow :=
  if DG_POS > DL_POS then
    introns.filterMap (fun intr =>
      if DL_POS = intr.istart then
        let newALT0 := pyslice intr.seq 0 (DG_POS - DL_POS + 1)
        let newALT :=
          if DL_POS ≤ POS ∧ POS ≤ DG_POS ∧ DL_POS ≤ POS + REF.length - 1 ∧
              POS + REF.length - 1 ≤ DG_POS then
            pyslice newALT0 0 (POS - DL_POS) ++ ALT ++
              pysliceFrom newALT0 (POS - DL_POS + REF.length - 1)
          else newALT0
        some { newPOS := some intr.istart, newREF := pyslice intr.seq 0 1,
               newALT := newALT, variantType := "DG_insertion_+" }
      else none)
  else if DG_POS < DL_POS then
    let new := calculate_distance_from_five_cap utr.exons utr.strand DG_POS
    let old := calculate_distance_from_five_cap utr.exons utr.strand DL_POS
    [{ newPOS := some DG_POS, newREF := pyslice utr.wtSEQ new (old + 1),
       newALT := pyslice utr.wtSEQ new (new + 1), variantType := "DG_deletion_+" }]
  else []

/-- The `AG` block on the minus strand (`Spliceai-2.py`), after its
cutoff and exon-boundary guards have passed.  (Single-character Python
indexing such as `intron[11][-1]` is modelled by the corresponding
one-character slice.) -/
def sa2AcceptorMinus (POS : Int) (REF ALT : List Char) (AG_POS AL_POS : Int)
    (utr : UTRRec) (introns : List IntronRec) : List SynthRow :=
  if AG_POS > AL_POS then
    introns.filterMap (fun intr =>
      if AL_POS = intr.istart then
        let newALT0 := rev_seq (pysliceFrom intr.seq (AL_POS - AG_POS - 1))
        let newALT :=
          if AG_POS ≥ POS ∧ POS ≥ AL_POS ∧ AG_POS ≥ POS + REF.length - 1 ∧
              POS + REF.length - 1 ≥ AL_POS then
            pyslice newALT0 0 (POS - AL_POS) ++ ALT ++
              pysliceFrom newALT0 (POS - AL_POS + REF.length - 1)
          else newALT0
        some { newPOS := some intr.istart,
               newREF := rev_seq (pyslice intr.seq (-1) intr.seq.length),
               newALT := newALT, variantType := "AG_insertion_-" }
      else none)
  else if AG_POS < AL_POS then
    let new := calculate_distance_from_five_cap utr.exons utr.strand AG_POS
    let old := calculate_distance_from_five_cap utr.exons utr.strand AL_POS
    [{ newPOS := some AG_POS, newREF := rev_seq (pyslice utr.wtSEQ old (new + 1)),
       newALT := rev_seq (pyslice utr.wtSEQ new (new + 1)),
       variantType := "AG_deletion_-" }]
  else []

/-- The `DG` block on the minus strand (`Spliceai-2.py`), after its
cutoff and exon-boundary guards have passed.  Its deletion branch emits
the `findPrevExonEnd` lookup without the truthiness check the `AG`
deletion branch has, hence the `Option` position. -/
def sa2DonorMinus (POS : Int) (REF ALT : List Char) (DG_POS DL_POS : Int)
    (utr : UTRRec) (introns : List IntronRec) : List SynthRow :=
  if DG_POS < DL_POS then
    introns.filterMap (fun intr =>
      if DL_POS = intr.iend then
        let newREF := rev_seq (pyslice intr.seq (-1) intr.seq.length)
        let newALT0 := newREF ++ rev_seq (pyslice intr.seq 1 (DL_POS - DG_POS + 1))
        let newALT :=
          if DL_POS ≥ POS ∧ POS ≥ DG_POS ∧ DL_POS ≥ POS + REF.length - 1 ∧
              POS + REF.length - 1 ≥ DG_POS then
            pyslice newALT0 0 (POS - DG_POS + 1) ++ ALT ++
              pysliceFrom newALT0 (POS - DG_POS + REF.length + 1)
          else newALT0
        some { newPOS := some intr.istart, newREF := newREF,
               newALT := newALT, variantType := "DG_insertion_-" }
      else none)
  else if DG_POS > DL_POS then
    let new := calculate_distance_from_five_cap utr.exons utr.strand DG_POS
    let old := calculate_distance_from_five_cap utr.exons utr.strand DL_POS
    [{ newPOS := findPrevExonEnd utr.exons DL_POS,
       newREF := rev_seq (pyslice utr.wtSEQ (new + 1) (old + 2)),
       newALT := rev_seq (pyslice utr.wtSEQ (old + 1) (old + 2)),
       variantType := "DG_deletion_-" }]
  else []

/-- The per-(variant, UTR) body of `process_variant` in `Spliceai-2.py`.
The crucial control-flow detail: inside each strand arm, when the
acceptor gain score passes the cutoff but the acceptor loss position
matches no exon boundary, the `continue` abandons the whole UTR, donor
block included.  A failed boundary test in the donor block likewise
`continue`s, but nothing follows it in the loop body. -/
def spliceai2_processUTR (CHR : String) (POS : Int) (REF ALT : List Char)
    (AG_score DG_score : ℚ) (AG_POS AL_POS DG_POS DL_POS : Int)
    (utr : UTRRec) (introns : List IntronRec) : List SynthRow :=
  if CHR ≠ utr.chrom ∨ utr.utrStart > POS ∨ utr.utrEnd < POS then []
  else if utr.strand = "+" then
    let donor : List SynthRow :=
      if DG_score ≥ CUTOFF then
        if ¬ exonBoundaryHit utr.exons DL_POS then []
        else sa2DonorPlus POS REF ALT DG_POS DL_POS utr introns
      else []
    if AG_score ≥ CUTOFF then
      if ¬ exonBoundaryHit utr.exons AL_POS then []
      else sa2AcceptorPlus POS REF ALT AG_POS AL_POS utr introns ++ donor
    else donor
  else
    let donor : List SynthRow :=
      if DG_score ≥ CUTOFF then
        if ¬ exonBoundaryHit utr.exons DL_POS then []
        else sa2DonorMinus POS REF ALT DG_POS DL_POS utr introns
      else []
    if AG_score ≥ CUTOFF then
      if ¬ exonBoundaryHit utr.exons AL_POS then []
      else sa2AcceptorMinus POS REF ALT AG_POS AL_POS utr introns ++ donor
    else donor

/-- Acceptor-event synthetic-variant kinds. -/
def isAcceptorKind (s : String) : Prop :=
  s = "AG_insertion_+" ∨ s = "AG_deletion_+" ∨ s = "AG_insertion_-" ∨ s = "AG_deletion_-"

/-- Donor-event synthetic-variant kinds. -/
def isDonorKind (s : String) : Prop :=
  s = "DG_insertion_+" ∨ s = "DG_deletion_+" ∨ s = "DG_insertion_-" ∨ s = "DG_deletion_-"

instance (s : String) : Decidable (isAcceptorKind s) := by
  unfold isAcceptorKind; infer_instance

instance (s : String) : Decidable (isDonorKind s) := by
  unfold isDonorKind; infer_instance

/-- The concrete UTR used by the C2 witness. -/
def utrC2 : UTRRec :=
  { chrom := "chr1", utrStart := 0, utrEnd := 10, strand := "+", transcript := "T",
    mKozakContext := [], mKozakStrength := "", wtSEQ := "AAAA".toList,
    exons := [(1, 4)], numUORFs := 0 }

/-- The concrete uORF discovered in the witness for C6: an `ATG` at
relative position 0 with the in-frame stop `TAA` right after it, main
start far downstream. -/
def gW : CreatedUORF :=
  { relStart := 0, relEnd := 5, startGenomic := 0, endGenomic := 5,
    distToMainStart := 10, stopCodon := "TAA".toList,
    uORF_TYPE := "Non-Overlapping", kozakContext := [], kozakStrength := "",
    uORF_LENGTH := 6 }

/-- The concrete uORF used in the C7 counterexample and witness. -/
def uC7 : UORFRec :=
  { absStart := 20, offset := 0, startCodon := ATG, stopCodon := "TAA".toList,
    utype := "Non-Overlapping", kozakStrength := "Weak", ulength := 9 }

/-- The mutated sequence used by the C3 counterexample and witness:
`ATG AAA TAA ATG`, a uORF start at 0, its rescanned stop at 6. -/
def seqC3 : List Char := "ATGAAATAAATG".toList

/-- The known uORF used by the C3 counterexample and witness: relative
start 0, length 6 (old stop 3), type `Non-Overlapping`. -/
def uC3 : UORFRec :=
  { absStart := 0, offset := 0, startCodon := ATG, stopCodon := "TAA".toList,
    utype := "Non-Overlapping", kozakStrength := "Weak", ulength := 6 }

/-- The concrete UTR used by the C8 counterexample and witness. -/
def utrC8 : UTRRec :=
  { chrom := "chr1", utrStart := 0, utrEnd := 100, strand := "+", transcript := "T1",
    mKozakContext := [], mKozakStrength := "Weak", wtSEQ := "ACGTACGTACGT".toList,
    exons := [(1, 10), (20, 30)], numUORFs := 0 }

/-- The concrete intron used by the C8 counterexample and witness. -/
def intrC8 : IntronRec := { istart := 10, iend := 19, seq := "GTAAGTAAA".toList }

/-- The three accumulators have equal lengths. -/
def IsBalanced (t : T3) : Prop :=
  t.1.length = t.2.1.length ∧ t.2.1.length = t.2.2.length

/-! ## Basic slice lemmas -/

lemma CUTOFF_eq_div : CUTOFF = 2 / 10 := by
  rw [CUTOFF, Rat.mk'_eq_divInt]
  norm_num [Rat.divInt_eq_div]

lemma length_rev_seq (s : List Char) : (rev_seq s).length = s.length := by
  simp [rev_seq]

lemma pyslice_zero_length (s : List Char) (b : Int) (h0 : 0 ≤ b)
    (hb : b ≤ (s.length : Int)) : ((pyslice s 0 b).length : Int) = b := by
  simp only [pyslice]
  rw [if_neg (by omega), if_neg (by omega), min_eq_left (by omega : (0 : Int) ≤ s.length),
    min_eq_left hb]
  simp only [List.length_drop, List.length_take]
  omega

lemma pysliceFrom_length (s : List Char) (a : Int) (h0 : 0 ≤ a)
    (ha : a ≤ (s.length : Int)) :
    ((pysliceFrom s a).length : Int) = (s.length : Int) - a := by
  simp only [pysliceFrom, pyslice]
  rw [if_neg (by omega), if_neg (by omega), min_eq_left ha,
    min_eq_left (le_refl (s.length : Int))]
  simp only [List.length_drop, List.length_take]
  omega

/-! ## C5 — mutated sequence length -/

/-- C5.  Mutated sequence length: under the caller contract
`0 ≤ relativePos` and `relativePos + len(ref) ≤ len(wtSeq)`, splicing the
alternate allele (reverse-complemented on the minus strand) over
`len(ref)` characters yields
`len(mutatedSeq) = len(wtSeq) + len(alt) - len(ref)`, on both strands. -/
theorem mutated_sequence_length (wtSEQ ref alt : List Char) (strand : String)
    (relativePos : Int) (h0 : 0 ≤ relativePos)
    (hc : relativePos + (ref.length : Int) ≤ (wtSEQ.length : Int)) :
    ((mutate wtSEQ relativePos ref alt strand).length : Int) =
      (wtSEQ.length : Int) + (alt.length : Int) - (ref.length : Int) := by
  unfold mutate
  have h1 : ((pyslice wtSEQ 0 relativePos).length : Int) = relativePos :=
    pyslice_zero_length wtSEQ relativePos h0 (by omega)
  have h2 : ((pysliceFrom wtSEQ (relativePos + ref.length)).length : Int) =
      (wtSEQ.length : Int) - (relativePos + ref.length) :=
    pysliceFrom_length wtSEQ _ (by omega) (by omega)
  simp only [List.length_append]
  push_cast
  split
  · push_cast at h1 h2 ⊢
    omega
  · have h3 := length_rev_seq alt
    push_cast at h1 h2 h3 ⊢
    omega

/-- Witness for C5 at a concrete input: wild type `AACCGG`, reference
`CC` replaced by `T` at relative position 2 on the plus strand. -/
theorem mutated_sequence_length_witness :
    ((mutate ("AACCGG".toList) 2 ("CC".toList) ("T".toList) "+").length : Int) =
      (("AACCGG".toList.length : Int)) + ("T".toList.length : Int) -
        ("CC".toList.length : Int) :=
  mutated_sequence_length _ _ _ _ _ (by decide) (by decide)

/-! ## C4 — Kozak classification -/

/-- C4, counterexample.  The claim says the Unknown result (the empty
label) is returned exactly when the context is empty or its length is
not 9; but a context of length 10 is classified (here as `Strong`), so
the claim fails at this input. -/
theorem kozak_length_counterexample :
    ("AAAAAAAAGA".toList.length ≠ 9) ∧
      calculate_kozak_strength ("AAAAAAAAGA".toList) = "Strong" ∧
      calculate_kozak_strength ("AAAAAAAAGA".toList) ≠ "" := by
  decide

/-- C4 as amended.  For `detection.py`: `Strong` iff the context has
length at least 9 and both diagnostic conditions hold (index 1 is `A` or
`G`, second-to-last is `G`); `Adequate` iff length at least 9 and
exactly one holds; `Weak` iff length at least 9 and neither holds; the
Unknown result iff length is less than 9 (which subsumes emptiness).
The `Spliceai-3.py` copy has no length guard: on any context of length
at least 2 it applies the same two conditions and never returns
Unknown. -/
theorem kozak_classification (k : List Char) :
    (calculate_kozak_strength k = "Strong" ↔
      9 ≤ k.length ∧ ((k.getD 1 ' ' = 'A' ∨ k.getD 1 ' ' = 'G') ∧
        k.getD (k.length - 2) ' ' = 'G')) ∧
    (calculate_kozak_strength k = "Adequate" ↔
      9 ≤ k.length ∧ ((k.getD 1 ' ' = 'A' ∨ k.getD 1 ' ' = 'G') ∨
        k.getD (k.length - 2) ' ' = 'G') ∧
      ¬ ((k.getD 1 ' ' = 'A' ∨ k.getD 1 ' ' = 'G') ∧
        k.getD (k.length - 2) ' ' = 'G')) ∧
    (calculate_kozak_strength k = "Weak" ↔
      9 ≤ k.length ∧ ¬ ((k.getD 1 ' ' = 'A' ∨ k.getD 1 ' ' = 'G') ∨
        k.getD (k.length - 2) ' ' = 'G')) ∧
    (calculate_kozak_strength k = "" ↔ k.length < 9) ∧
    (2 ≤ k.length →
      (spliceai3_calculate_kozak_strength k = "Strong" ↔
        (k.getD 1 ' ' = 'A' ∨ k.getD 1 ' ' = 'G') ∧
          k.getD (k.length - 2) ' ' = 'G') ∧
      spliceai3_calculate_kozak_strength k ≠ "") := by
  have hiff : (k = [] ∨ k.length < 9) ↔ k.length < 9 := by
    constructor
    · rintro (h | h)
      · simp [h]
      · exact h
    · exact Or.inr
  unfold calculate_kozak_strength spliceai3_calculate_kozak_strength
  simp only [hiff]
  split_ifs <;> simp_all

/-- Witness for C4 at a concrete input: the canonical strong context of
length 9. -/
theorem kozak_classification_witness :
    calculate_kozak_strength ("GACATGGGG".toList) = "Strong" :=
  (kozak_classification ("GACATGGGG".toList)).1.mpr ⟨by decide, by decide, by decide⟩

/-! ## C6 — new-uORF length invariant -/

lemma scanStopAux_step_form (s : List Char) :
    ∀ (fuel : Nat) (e : Int), ∃ k : Nat, scanStopAux s fuel e = e + 3 * k := by
  intro fuel
  induction fuel with
  | zero => intro e; exact ⟨0, by simp [scanStopAux]⟩
  | succ n ih =>
      intro e
      unfold scanStopAux
      split
      · obtain ⟨k, hk⟩ := ih (e + 3)
        exact ⟨k + 1, by rw [hk]; push_cast; ring⟩
      · exact ⟨0, by simp⟩

lemma scanStop_step_form (s : List Char) (e : Int) :
    ∃ k : Nat, scanStop s e = e + 3 * k :=
  scanStopAux_step_form s _ e

/-- C6.  New-uORF length invariant: whenever the scans of `uStart_gain`
terminate (the start scan finds an `ATG`, modelled by a `some` result)
and the discovered uORF is not classified `N-terminal extension`, the
relative start and end positions it returns satisfy
`(uORF_END - uORF_START + 1) % 3 == 0` (this quantity is exactly the
returned `uORF_LENGTH`). -/
theorem uStart_gain_length_invariant (relativePosition startPOS : Int)
    (mutatedSequence : List Char) (STRAND : String) (exons : List (Int × Int))
    (g : CreatedUORF)
    (h : uStart_gain relativePosition mutatedSequence startPOS STRAND exons = some g)
    (ht : g.uORF_TYPE ≠ "N-terminal extension") :
    (g.relEnd - g.relStart + 1) % 3 = 0 := by
  unfold uStart_gain at h
  rcases hf : findATGFrom mutatedSequence (relativePosition - 2) with _ | j
  · rw [hf] at h; exact absurd h (by simp)
  · rw [hf] at h
    obtain ⟨k, hk⟩ := scanStop_step_form mutatedSequence (j + 3)
    simp only [Option.some.injEq] at h
    have hs : g.relStart = j := by rw [← h]
    have he : g.relEnd = scanStop mutatedSequence (j + 3) + 2 := by rw [← h]
    rw [hs, he, hk]
    omega

/-- Witness for C6 at a concrete input. -/
theorem uStart_gain_length_invariant_witness :
    uStart_gain 2 ("ATGTAACCCCCCATGCCC".toList) 10 "+" [(0, 20)] = some gW ∧
      gW.uORF_TYPE ≠ "N-terminal extension" ∧ (gW.relEnd - gW.relStart + 1) % 3 = 0 :=
  ⟨by decide, by decide,
    uStart_gain_length_invariant 2 10 ("ATGTAACCCCCCATGCCC".toList) "+" [(0, 20)] gW
      (by decide) (by decide)⟩

/-! ## C7 — uORF coordinate shift -/

/-- C7, counterexample.  For the insertion `AC -> ACGT` (an indel with
`len(alt) - len(ref) = 2`) editing at relative position 5, strictly
before the uORF start 20, the code shifts start and stop by
`len(ALT) - 1 = 3`, to `(23, 29)`, not by the claimed length delta,
which would give `(22, 28)`. -/
theorem shifted_coords_counterexample :
    ("AC".toList.length ≠ "ACGT".toList.length) ∧ (5 : Int) < uC7.absStart - uC7.offset ∧
      shiftedCoords 5 ("AC".toList) ("ACGT".toList) uC7 = (23, 29) ∧
      shiftedCoords 5 ("AC".toList) ("ACGT".toList) uC7 ≠ (22, 28) := by
  decide

/-- C7 as amended.  For an edit strictly before the uORF start: an
insertion shifts both coordinates by `len(alt) - 1`, and a deletion
whose reference span ends at or before the uORF start shifts both by
`-(len(ref) - 1)`; these equal the claimed indel length delta
`len(alt) - len(ref)` exactly when the shorter allele has length 1. -/
theorem shifted_coords_amended (relativePos : Int) (REF ALT : List Char) (u : UORFRec)
    (hlen : 3 ≤ u.ulength) :
    (REF.length < ALT.length → relativePos < u.absStart - u.offset →
      shiftedCoords relativePos REF ALT u =
        (u.absStart - u.offset + ALT.length - 1,
          u.absStart - u.offset + u.ulength - 3 + ALT.length - 1)) ∧
    (ALT.length < REF.length → relativePos + REF.length ≤ u.absStart - u.offset →
      shiftedCoords relativePos REF ALT u =
        (u.absStart - u.offset - (REF.length - 1),
          u.absStart - u.offset + u.ulength - 3 - (REF.length - 1))) := by
  constructor
  · intro hins hpos
    simp only [shiftedCoords]
    split_ifs <;> simp only [Prod.mk.injEq] <;> omega
  · intro hdel hpos
    simp only [shiftedCoords]
    split_ifs <;> simp only [Prod.mk.injEq] <;> omega

/-- Witness for C7 at concrete inputs: the single-base-anchored
insertion `A -> AGG` and deletion `AGG -> A` before the uORF at 20,
where the shift does coincide with the length delta. -/
theorem shifted_coords_amended_witness :
    shiftedCoords 5 ("A".toList) ("AGG".toList) uC7 = (22, 28) ∧
      shiftedCoords 5 ("AGG".toList) ("A".toList) uC7 = (18, 24) := by
  constructor
  · have h := (shifted_coords_amended 5 ("A".toList) ("AGG".toList) uC7 (by decide)).1
      (by decide) (by decide)
    rw [h]; decide
  · have h := (shifted_coords_amended 5 ("AGG".toList) ("A".toList) uC7 (by decide)).2
      (by decide) (by decide)
    rw [h]; decide

/-! ## C10 — termination of the new-uORF start scan -/

lemma leadMatch_eq_append : ∀ (pat L : List Char), leadMatch pat L = true →
    ∃ t, L = pat ++ t
  | [], L, _ => ⟨L, rfl⟩
  | _ :: _, [], h => by simp [leadMatch] at h
  | p :: ps, c :: cs, h => by
      simp only [leadMatch, Bool.and_eq_true, decide_eq_true_eq] at h
      obtain ⟨t, ht⟩ := leadMatch_eq_append ps cs h.2
      exact ⟨t, by rw [← h.1, ht]; rfl⟩

lemma containsSub_exists : ∀ (pat L : List Char), containsSub pat L = true →
    ∃ l1 l2, L = l1 ++ pat ++ l2
  | pat, [], h => by
      unfold containsSub at h
      obtain ⟨t, ht⟩ := leadMatch_eq_append pat [] h
      exact ⟨[], t, by simpa using ht⟩
  | pat, c :: rest, h => by
      unfold containsSub at h
      rcases Bool.or_eq_true_iff.mp h with h1 | h2
      · obtain ⟨t, ht⟩ := leadMatch_eq_append pat (c :: rest) h1
        exact ⟨[], t, by rw [ht]; simp⟩
      · obtain ⟨l1, l2, hl⟩ := containsSub_exists pat rest h2
        exact ⟨c :: l1, l2, by rw [hl]; simp⟩

lemma window_of_take_decomp (s pat l1 l2 : List Char) (A B : ℕ)
    (h : (s.drop A).take B = l1 ++ (pat ++ l2)) :
    (s.drop (A + l1.length)).take pat.length = pat := by
  have h1 : s.drop A = l1 ++ (pat ++ (l2 ++ (s.drop A).drop B)) := by
    conv_lhs => rw [← List.take_append_drop B (s.drop A)]
    rw [h]
    simp [List.append_assoc]
  have h2 : s.drop (A + l1.length) = pat ++ (l2 ++ (s.drop A).drop B) := by
    conv_lhs => rw [← List.drop_drop, h1]
    rw [List.drop_left]
  rw [h2, List.take_left]

lemma pyslice_eq_drop_take (s : List Char) (i : ℕ) (h : i + 3 ≤ s.length) :
    pyslice s (i : Int) ((i : Int) + 3) = (s.drop i).take 3 := by
  simp only [pyslice]
  rw [if_neg (by omega), if_neg (by omega), min_eq_left (by omega),
    min_eq_left (by omega)]
  rw [show ((i : Int) + 3).toNat = i + 3 by omega, show ((i : Int)).toNat = i by omega]
  rw [List.drop_take]
  congr 1
  omega

lemma findATGAux_isSome (s : List Char) :
    ∀ (fuel : ℕ) (start j : Int), start ≤ j → j < start + fuel →
      pyslice s j (j + 3) = ATG → (findATGAux s start fuel).isSome := by
  intro fuel
  induction fuel with
  | zero => intro start j h1 h2 _; omega
  | succ m ih =>
      intro start j h1 h2 hj
      unfold findATGAux
      split
      · simp
      · rename_i hne
        have hsj : start ≠ j := fun he => hne (he ▸ hj)
        exact ih (start + 1) j (by omega) (by push_cast at h2 ⊢; omega) hj

/-- Core termination fact: whenever the Python guard
`"ATG" in mutatedSequence[x:y]` holds for any slice bounds, the start
scan beginning at `x` stops (the slice is a contiguous substring of the
sequence located at nonnegative offsets, so the `ATG` inside it is found
by the forward scan). -/
lemma findATGFrom_isSome_of_guard (s : List Char) (a b : Int)
    (h : containsSub ATG (pyslice s a b) = true) : (findATGFrom s a).isSome := by
  obtain ⟨l1, l2, hdec⟩ := containsSub_exists ATG _ h
  rw [List.append_assoc] at hdec
  simp only [pyslice] at hdec
  rw [List.drop_take] at hdec
  have hwin := window_of_take_decomp s ATG l1 l2 _ _ hdec
  set n : Int := (s.length : Int) with hn
  set A : Int := if a < 0 then max (n + a) 0 else min a n with hA
  have hA0 : 0 ≤ A := by rw [hA]; split <;> omega
  have hbound : A.toNat + l1.length + 3 ≤ s.length := by
    have hlen := congrArg List.length hwin
    simp only [List.length_take, List.length_drop] at hlen
    have : ATG.length = 3 := rfl
    omega
  have hA_le : a ≤ A := by
    rw [hA]
    split
    · omega
    · rcases le_or_lt a n with hle | hgt
      · omega
      · exfalso
        have : A = n := by rw [hA]; split <;> omega
        have : A.toNat = s.length := by omega
        omega
  have hi3 : (A.toNat + l1.length) + 3 ≤ s.length := hbound
  have hps := pyslice_eq_drop_take s (A.toNat + l1.length) hi3
  rw [show ATG.length = 3 from rfl] at hwin
  rw [← hps] at hwin
  unfold findATGFrom
  exact findATGAux_isSome s _ a (A.toNat + l1.length) (by omega)
    (by push_cast; omega) hwin

/-- C10, counterexample.  The claim asserts that without the
`relativePosition ≥ 2` precondition the guard can hold through a
negative-index slice while the scan never finds an `ATG`; this is
impossible: every Python slice, negative bounds included, is a
contiguous substring of the sequence, so the guard always implies the
scan terminates. -/
theorem uStart_gain_scan_counterexample :
    ¬ ∃ (s alt : List Char) (rp : Int), rp < 2 ∧
      containsSub ATG (pyslice s (rp - 2) (rp + alt.length + 2)) = true ∧
      findATGFrom s (rp - 2) = none := by
  rintro ⟨s, alt, rp, _, hg, hnone⟩
  have := findATGFrom_isSome_of_guard s (rp - 2) (rp + alt.length + 2) hg
  rw [hnone] at this
  exact absurd this (by simp)

/-- C10 as amended.  Whenever the guard of the `uStart_gain` call holds
— `"ATG"` occurs in `mutatedSequence[relativePosition-2 :
relativePosition+len(alt)+2]` — the backward/forward `ATG` search loop
terminates, for every `relativePosition`, with no `≥ 2` precondition:
negative-index slices still denote contiguous substrings, so a satisfied
guard always hands the scan an `ATG` at a reachable index. -/
theorem uStart_gain_scan_terminates (mutatedSequence alt : List Char)
    (relativePosition : Int)
    (hguard : containsSub ATG
      (pyslice mutatedSequence (relativePosition - 2)
        (relativePosition + alt.length + 2)) = true) :
    (findATGFrom mutatedSequence (relativePosition - 2)).isSome :=
  findATGFrom_isSome_of_guard mutatedSequence _ _ hguard

/-- Witness for C10 at a concrete input. -/
theorem uStart_gain_scan_terminates_witness :
    (findATGFrom ("AAATGAA".toList) (3 - 2)).isSome :=
  uStart_gain_scan_terminates ("AAATGAA".toList) ("T".toList) 3 (by decide)

/-! ## C2 — mStart-loss filter -/

/-- C2.  For every (variant, UTR) pair, when the three characters of the
mutated sequence at the (shifted) main-start position are not `ATG`, the
classifier emits nothing for that UTR: all three accumulators stay
empty, so no `mKozak`, `uStart_gain`, `uStart_loss`, `uStop` or `uKozak`
row is produced. -/
theorem mStart_loss_filter (CHR : String) (POS : Int) (REF ALT : List Char)
    (utr : UTRRec) (uorfs : List UORFRec)
    (h : pyslice (detectionMutatedSeq utr POS REF ALT)
      (detectionStartPOS utr REF ALT) (detectionStartPOS utr REF ALT + 3) ≠ ATG) :
    processUTR CHR POS REF ALT utr uorfs = t3nil := by
  simp only [processUTR]
  by_cases h1 : utr.chrom ≠ CHR ∨ ¬ (utr.utrStart < POS ∧ POS < utr.utrEnd)
  · rw [if_pos h1]
  · rw [if_neg h1]
    by_cases h2 : ¬ utr.exons.any (fun ex =>
        ex.1 ≤ POS ∧ POS ≤ ex.2 ∧ ex.1 ≤ POS + REF.length - 1 ∧
          POS + REF.length - 1 ≤ ex.2)
    · rw [if_pos h2]
    · rw [if_neg h2, if_pos h]

/-- Witness for C2 at a concrete input. -/
theorem mStart_loss_filter_witness :
    processUTR "chr1" 2 ("A".toList) ("C".toList) utrC2 [] = t3nil :=
  mStart_loss_filter "chr1" 2 ("A".toList) ("C".toList) utrC2 [] (by decide)

/-! ## C9 — emission triple invariant -/

lemma isBalanced_t3nil : IsBalanced t3nil := ⟨rfl, rfl⟩

lemma isBalanced_tcat {a b : T3} (ha : IsBalanced a) (hb : IsBalanced b) :
    IsBalanced (tcat a b) := by
  obtain ⟨ha1, ha2⟩ := ha
  obtain ⟨hb1, hb2⟩ := hb
  unfold tcat IsBalanced
  simp only [List.length_append]
  omega

lemma isBalanced_uKozakRows (relativePosition uSTART : Int) (mseq : List Char)
    (u : UORFRec) : IsBalanced (uKozakRows relativePosition uSTART mseq u) := by
  simp only [uKozakRows]
  split_ifs <;> first | exact ⟨rfl, rfl⟩ | exact isBalanced_t3nil

lemma isBalanced_uStopLossRows (codon uSTOP startPOS : Int) (u : UORFRec)
    (newStop : List Char) : IsBalanced (uStopLossRows codon uSTOP startPOS u newStop) := by
  simp only [uStopLossRows]
  split_ifs <;> first | exact ⟨rfl, rfl⟩ | exact isBalanced_t3nil

lemma isBalanced_spliceai3_uStopLossRows (codon uSTOP startPOS : Int) (u : UORFRec)
    (newStop : List Char) :
    IsBalanced (spliceai3_uStopLossRows codon uSTOP startPOS u newStop) := by
  simp only [spliceai3_uStopLossRows]
  split_ifs <;> first | exact ⟨rfl, rfl⟩ | exact isBalanced_t3nil

lemma isBalanced_uStopGainRows (relativePosition uSTART : Int) (mseq : List Char)
    (u : UORFRec) (newStop : List Char) :
    IsBalanced (uStopGainRows relativePosition uSTART mseq u newStop) := by
  simp only [uStopGainRows]
  split_ifs <;>
    first
      | exact ⟨rfl, rfl⟩
      | exact isBalanced_tcat ⟨rfl, rfl⟩ (isBalanced_uKozakRows _ _ _ _)

lemma isBalanced_uorfStep (relativePosition startPOS : Int)
    (REF ALT mseq : List Char) (u : UORFRec) :
    IsBalanced (uorfStep relativePosition startPOS REF ALT mseq u) := by
  simp only [uorfStep]
  split_ifs <;>
    first
      | exact ⟨rfl, rfl⟩
      | exact isBalanced_t3nil
      | exact isBalanced_uStopGainRows _ _ _ _ _
      | exact isBalanced_tcat (isBalanced_uStopLossRows _ _ _ _ _)
          (isBalanced_uKozakRows _ _ _ _)

lemma isBalanced_uorfRows (relativePosition startPOS : Int)
    (REF ALT mseq : List Char) (uorfs : List UORFRec) :
    IsBalanced (uorfRows relativePosition startPOS REF ALT mseq uorfs) := by
  unfold uorfRows
  have h : ∀ (us : List UORFRec) (acc : T3), IsBalanced acc →
      IsBalanced (us.foldl
        (fun a u => tcat a (uorfStep relativePosition startPOS REF ALT mseq u)) acc) := by
    intro us
    induction us with
    | nil => intro acc hacc; exact hacc
    | cons u rest ih =>
        intro acc hacc
        exact ih _ (isBalanced_tcat hacc (isBalanced_uorfStep _ _ _ _ _ _))
  exact h uorfs t3nil isBalanced_t3nil

lemma isBalanced_mKozakRows (mseq : List Char) (startPOS : Int) (utr : UTRRec) :
    IsBalanced (mKozakRows mseq startPOS utr) := by
  simp only [mKozakRows]
  split_ifs <;>
    first
      | exact isBalanced_t3nil
      | exact isBalanced_tcat ⟨rfl, rfl⟩ ⟨rfl, rfl⟩
      | exact isBalanced_tcat ⟨rfl, rfl⟩ isBalanced_t3nil
      | exact isBalanced_tcat isBalanced_t3nil ⟨rfl, rfl⟩
      | exact isBalanced_tcat isBalanced_t3nil isBalanced_t3nil

lemma isBalanced_uStartGainRows (relativePosition : Int) (wt mseq REF ALT : List Char)
    (startPOS : Int) (strand : String) (exons : List (Int × Int)) :
    IsBalanced (uStartGainRows relativePosition wt mseq REF ALT startPOS strand exons) := by
  simp only [uStartGainRows]
  split_ifs
  · cases hg : uStart_gain relativePosition mseq startPOS strand exons with
    | none => exact isBalanced_t3nil
    | some g => exact ⟨rfl, rfl⟩
  · exact isBalanced_t3nil

/-- C9.  Emission-triple invariant: on every (variant, UTR) evaluation
the three accumulators `CSQ[0]`, `CSQ[1]`, `uORFAnnotations` end with
equal lengths — every consequence branch appends exactly one tag, one
direction and one payload — so the final emission loop produces exactly
one output row per tag and its indexing `CSQ[1][count]`,
`uORFAnnotations[count]` is in range for every emitted row. -/
theorem emission_triple_invariant (CHR : String) (POS : Int) (REF ALT : List Char)
    (utr : UTRRec) (uorfs : List UORFRec) :
    IsBalanced (processUTR CHR POS REF ALT utr uorfs) ∧
      (emitUTR (processUTR CHR POS REF ALT utr uorfs)).length =
        (processUTR CHR POS REF ALT utr uorfs).1.length := by
  have hb : IsBalanced (processUTR CHR POS REF ALT utr uorfs) := by
    simp only [processUTR]
    split_ifs <;>
      first
        | exact isBalanced_t3nil
        | exact isBalanced_tcat
            (isBalanced_tcat (isBalanced_mKozakRows _ _ _)
              (isBalanced_uStartGainRows _ _ _ _ _ _ _ _))
            (isBalanced_uorfRows _ _ _ _ _ _)
        | exact isBalanced_tcat
            (isBalanced_tcat (isBalanced_mKozakRows _ _ _)
              (isBalanced_uStartGainRows _ _ _ _ _ _ _ _))
            isBalanced_t3nil
  refine ⟨hb, ?_⟩
  obtain ⟨h1, h2⟩ := hb
  unfold emitUTR
  simp only [List.length_zip]
  omega

/-! ## C3 — uStop-loss transition rule -/

lemma uorfStep_loss_shape (relativePosition startPOS : Int) (REF ALT mseq : List Char)
    (u : UORFRec) (uS uE : Int)
    (hsc : shiftedCoords relativePosition REF ALT u = (uS, uE))
    (hwin : uS - 6 ≤ relativePosition ∧ relativePosition ≤ uE + 2)
    (hstart : pyslice mseq uS (uS + 3) = u.startCodon ∨ pyslice mseq uS (uS + 3) = ATG)
    (hlater : uE < scanStop mseq uS) :
    uorfStep relativePosition startPOS REF ALT mseq u =
      tcat (uStopLossRows (scanStop mseq uS) uE startPOS u
          (pyslice mseq (scanStop mseq uS) (scanStop mseq uS + 3)))
        (uKozakRows relativePosition uS mseq u) ∧
    spliceai3_uorfStep relativePosition startPOS REF ALT mseq u =
      tcat (spliceai3_uStopLossRows (scanStop mseq uS) uE startPOS u
          (pyslice mseq (scanStop mseq uS) (scanStop mseq uS + 3)))
        (uKozakRows relativePosition uS mseq u) := by
  constructor
  · simp only [uorfStep, hsc]
    rw [if_pos hwin, if_neg (by
        rintro ⟨h1, h2⟩
        rcases hstart with h | h
        · exact h1 h
        · exact h2 h),
      if_neg (by rintro ⟨h1, _⟩; omega)]
  · simp only [spliceai3_uorfStep, hsc]
    rw [if_pos hwin, if_neg (by
        rintro ⟨h1, h2⟩
        rcases hstart with h | h
        · exact h1 h
        · exact h2 h),
      if_neg (by rintro ⟨h1, _⟩; omega)]

/-- C3 as amended.  For a known uORF of original type `Non-Overlapping`
whose rescanned in-frame stop is later than its (shifted) old stop: in
the original detection pass the transition is decided by
`codon >= startPOS and (codon - startPOS) % 3 == 0` (then
`codon >= startPOS`, else the longer-Non-Overlapping case) exactly as
the claim states; but in the splice-remapped second pass the in-frame
branch tests only `(codon - startPOS) % 3 == 0` with no position
comparison, and the Overlapping branch tests `codon + 2 > startPOS`, so
the two passes do not share one canonical rule: an in-frame new stop
strictly before `startPOS` emits `uStop_loss to N-terminal extension`
there instead of `uStop_loss longer Non-Overlapping`. -/
theorem uStop_loss_transition_rules (relativePosition startPOS : Int)
    (REF ALT mseq : List Char) (u : UORFRec) (uS uE : Int)
    (hsc : shiftedCoords relativePosition REF ALT u = (uS, uE))
    (hwin : uS - 6 ≤ relativePosition ∧ relativePosition ≤ uE + 2)
    (hstart : pyslice mseq uS (uS + 3) = u.startCodon ∨ pyslice mseq uS (uS + 3) = ATG)
    (htype : u.utype = "Non-Overlapping")
    (hlater : uE < scanStop mseq uS) :
    (startPOS ≤ scanStop mseq uS ∧ (scanStop mseq uS - startPOS) % 3 = 0 →
      uorfStep relativePosition startPOS REF ALT mseq u =
        tcat (["uStop_loss to N-terminal extension"], ["N-terminal extension"],
            [Anno.transition u (pyslice mseq (scanStop mseq uS) (scanStop mseq uS + 3))])
          (uKozakRows relativePosition uS mseq u)) ∧
    (startPOS ≤ scanStop mseq uS ∧ (scanStop mseq uS - startPOS) % 3 ≠ 0 →
      uorfStep relativePosition startPOS REF ALT mseq u =
        tcat (["uStop_loss to Overlapping"], ["decreased"],
            [Anno.transition u (pyslice mseq (scanStop mseq uS) (scanStop mseq uS + 3))])
          (uKozakRows relativePosition uS mseq u)) ∧
    (scanStop mseq uS < startPOS →
      uorfStep relativePosition startPOS REF ALT mseq u =
        tcat (["uStop_loss longer Non-Overlapping"], ["decreased"],
            [Anno.transition u (pyslice mseq (scanStop mseq uS) (scanStop mseq uS + 3))])
          (uKozakRows relativePosition uS mseq u)) ∧
    ((scanStop mseq uS - startPOS) % 3 = 0 →
      spliceai3_uorfStep relativePosition startPOS REF ALT mseq u =
        tcat (["uStop_loss to N-terminal extension"], ["N-terminal extension"],
            [Anno.transition u (pyslice mseq (scanStop mseq uS) (scanStop mseq uS + 3))])
          (uKozakRows relativePosition uS mseq u)) ∧
    ((scanStop mseq uS - startPOS) % 3 ≠ 0 → startPOS < scanStop mseq uS + 2 →
      spliceai3_uorfStep relativePosition startPOS REF ALT mseq u =
        tcat (["uStop_loss to Overlapping"], ["decreased"],
            [Anno.transition u (pyslice mseq (scanStop mseq uS) (scanStop mseq uS + 3))])
          (uKozakRows relativePosition uS mseq u)) ∧
    ((scanStop mseq uS - startPOS) % 3 ≠ 0 → scanStop mseq uS + 2 ≤ startPOS →
      spliceai3_uorfStep relativePosition startPOS REF ALT mseq u =
        tcat (["uStop_loss longer Non-Overlapping"], ["decreased"],
            [Anno.transition u (pyslice mseq (scanStop mseq uS) (scanStop mseq uS + 3))])
          (uKozakRows relativePosition uS mseq u)) := by
  obtain ⟨hd, hs3⟩ := uorfStep_loss_shape relativePosition startPOS REF ALT mseq u uS uE
    hsc hwin hstart hlater
  refine ⟨?_, ?_, ?_, ?_, ?_, ?_⟩
  · rintro ⟨h1, h2⟩
    rw [hd]
    unfold uStopLossRows
    rw [if_pos ⟨hlater, htype⟩, if_pos ⟨h1, h2⟩]
  · rintro ⟨h1, h2⟩
    rw [hd]
    unfold uStopLossRows
    rw [if_pos ⟨hlater, htype⟩, if_neg (by rintro ⟨_, h⟩; exact h2 h), if_pos h1]
  · intro h1
    rw [hd]
    unfold uStopLossRows
    rw [if_pos ⟨hlater, htype⟩, if_neg (by rintro ⟨h, _⟩; omega),
      if_neg (by omega)]
  · intro h1
    rw [hs3]
    unfold spliceai3_uStopLossRows
    rw [if_pos ⟨hlater, htype⟩, if_pos h1]
  · intro h1 h2
    rw [hs3]
    unfold spliceai3_uStopLossRows
    rw [if_neg h1, if_pos ⟨hlater, htype⟩, if_pos (by omega)]
  · intro h1 h2
    rw [hs3]
    unfold spliceai3_uStopLossRows
    rw [if_neg h1, if_pos ⟨hlater, htype⟩, if_neg (by omega)]

/-- C3, counterexample.  With main start `startPOS = 9` and the
rescanned stop at `codon = 6 < 9`, in frame (`(6 - 9) % 3 == 0`), the
claim mandates `uStop_loss longer Non-Overlapping` in both passes; the
original detection pass emits it, but the splice-remapped pass
(`Spliceai-3.py`) emits `uStop_loss to N-terminal extension` — the
canonical rule does not hold in both passes. -/
theorem uStop_loss_counterexample :
    scanStop seqC3 0 = 6 ∧ (6 : Int) < 9 ∧ ((6 : Int) - 9) % 3 = 0 ∧
      uorfStep 5 9 ("A".toList) ("A".toList) seqC3 uC3 =
        (["uStop_loss longer Non-Overlapping"], ["decreased"],
          [Anno.transition uC3 ("TAA".toList)]) ∧
      spliceai3_uorfStep 5 9 ("A".toList) ("A".toList) seqC3 uC3 =
        (["uStop_loss to N-terminal extension"], ["N-terminal extension"],
          [Anno.transition uC3 ("TAA".toList)]) := by
  decide

/-- Witness for C3 at a concrete input (main start at 4, rescanned stop
at 6, out of frame: the Overlapping branch of the detection rule). -/
theorem uStop_loss_transition_rules_witness :
    uorfStep 5 4 ("A".toList) ("A".toList) seqC3 uC3 =
      tcat (["uStop_loss to Overlapping"], ["decreased"],
          [Anno.transition uC3 (pyslice seqC3 (scanStop seqC3 0) (scanStop seqC3 0 + 3))])
        (uKozakRows 5 0 seqC3 uC3) :=
  ((uStop_loss_transition_rules 5 4 ("A".toList) ("A".toList) seqC3 uC3 0 3
    (by decide) ⟨by decide, by decide⟩ (Or.inr (by decide)) (by decide)
    (by decide)).2.1) ⟨by decide, by decide⟩

/-! ## C8 — splice-remapper gating -/

lemma mem_sa2AcceptorPlus_kind (POS : Int) (REF ALT : List Char) (AG_POS AL_POS : Int)
    (utr : UTRRec) (introns : List IntronRec) (row : SynthRow)
    (h : row ∈ sa2AcceptorPlus POS REF ALT AG_POS AL_POS utr introns) :
    row.variantType = "AG_insertion_+" ∨ row.variantType = "AG_deletion_+" := by
  unfold sa2AcceptorPlus at h
  by_cases h1 : AG_POS < AL_POS
  · rw [if_pos h1] at h
    rcases List.mem_filterMap.mp h with ⟨intr, -, hsome⟩
    by_cases hc : AL_POS = intr.iend
    · rw [if_pos hc] at hsome
      left
      obtain rfl := (Option.some.injEq _ _).mp hsome
      rfl
    · rw [if_neg hc] at hsome
      exact absurd hsome (by simp)
  · rw [if_neg h1] at h
    by_cases h2 : AG_POS > AL_POS
    · rw [if_pos h2] at h
      rcases hp : findPrevExonEnd utr.exons AL_POS with _ | p
      · simp only [hp] at h
        exact absurd h (by simp)
      · simp only [hp] at h
        by_cases hz : p ≠ 0
        · rw [if_pos hz] at h
          right
          obtain rfl := List.mem_singleton.mp h
          rfl
        · rw [if_neg hz] at h
          exact absurd h (by simp)
    · rw [if_neg h2] at h
      exact absurd h (by simp)

lemma mem_sa2DonorPlus_kind (POS : Int) (REF ALT : List Char) (DG_POS DL_POS : Int)
    (utr : UTRRec) (introns : List IntronRec) (row : SynthRow)
    (h : row ∈ sa2DonorPlus POS REF ALT DG_POS DL_POS utr introns) :
    row.variantType = "DG_insertion_+" ∨ row.variantType = "DG_deletion_+" := by
  unfold sa2DonorPlus at h
  by_cases h1 : DG_POS > DL_POS
  · rw [if_pos h1] at h
    rcases List.mem_filterMap.mp h with ⟨intr, -, hsome⟩
    by_cases hc : DL_POS = intr.istart
    · rw [if_pos hc] at hsome
      left
      obtain rfl := (Option.some.injEq _ _).mp hsome
      rfl
    · rw [if_neg hc] at hsome
      exact absurd hsome (by simp)
  · rw [if_neg h1] at h
    by_cases h2 : DG_POS < DL_POS
    · rw [if_pos h2] at h
      right
      obtain rfl := List.mem_singleton.mp h
      rfl
    · rw [if_neg h2] at h
      exact absurd h (by simp)

lemma mem_sa2AcceptorMinus_kind (POS : Int) (REF ALT : List Char) (AG_POS AL_POS : Int)
    (utr : UTRRec) (introns : List IntronRec) (row : SynthRow)
    (h : row ∈ sa2AcceptorMinus POS REF ALT AG_POS AL_POS utr introns) :
    row.variantType = "AG_insertion_-" ∨ row.variantType = "AG_deletion_-" := by
  unfold sa2AcceptorMinus at h
  by_cases h1 : AG_POS > AL_POS
  · rw [if_pos h1] at h
    rcases List.mem_filterMap.mp h with ⟨intr, -, hsome⟩
    by_cases hc : AL_POS = intr.istart
    · rw [if_pos hc] at hsome
      left
      obtain rfl := (Option.some.injEq _ _).mp hsome
      rfl
    · rw [if_neg hc] at hsome
      exact absurd hsome (by simp)
  · rw [if_neg h1] at h
    by_cases h2 : AG_POS < AL_POS
    · rw [if_pos h2] at h
      right
      obtain rfl := List.mem_singleton.mp h
      rfl
    · rw [if_neg h2] at h
      exact absurd h (by simp)

lemma mem_sa2DonorMinus_kind (POS : Int) (REF ALT : List Char) (DG_POS DL_POS : Int)
    (utr : UTRRec) (introns : List IntronRec) (row : SynthRow)
    (h : row ∈ sa2DonorMinus POS REF ALT DG_POS DL_POS utr introns) :
    row.variantType = "DG_insertion_-" ∨ row.variantType = "DG_deletion_-" := by
  unfold sa2DonorMinus at h
  by_cases h1 : DG_POS < DL_POS
  · rw [if_pos h1] at h
    rcases List.mem_filterMap.mp h with ⟨intr, -, hsome⟩
    by_cases hc : DL_POS = intr.iend
    · rw [if_pos hc] at hsome
      left
      obtain rfl := (Option.some.injEq _ _).mp hsome
      rfl
    · rw [if_neg hc] at hsome
      exact absurd hsome (by simp)
  · rw [if_neg h1] at h
    by_cases h2 : DG_POS > DL_POS
    · rw [if_pos h2] at h
      right
      obtain rfl := List.mem_singleton.mp h
      rfl
    · rw [if_neg h2] at h
      exact absurd h (by simp)

lemma mem_guarded_block (c : Prop) [Decidable c] (x : Bool) (B : List SynthRow)
    (row : SynthRow) (h : row ∈ (if c then (if ¬ x then ([] : List SynthRow) else B)
      else [])) : row ∈ B ∧ c ∧ x = true := by
  by_cases hc : c
  · rw [if_pos hc] at h
    by_cases hx : ¬ x
    · rw [if_pos hx] at h
      exact absurd h (by simp)
    · rw [if_neg hx] at h
      exact ⟨h, hc, by revert hx; cases x <;> simp⟩
  · rw [if_neg hc] at h
    exact absurd h (by simp)

/-- C8 as amended.  Gating is one-directional as the claim states: every
emitted synthetic row of an event kind requires that kind's own gain
score to pass the cutoff and that kind's loss position to match a known
exon of the UTR (implemented as equality with an exon boundary).  But
the two kinds are not independent: when the acceptor gain score passes
the cutoff and the acceptor loss position matches no exon boundary, the
`continue` abandons the whole UTR, so donor synthetic variants are
suppressed as well (second conjunct). -/
theorem spliceai2_gating (CHR : String) (POS : Int) (REF ALT : List Char)
    (AG_score DG_score : ℚ) (AG_POS AL_POS DG_POS DL_POS : Int)
    (utr : UTRRec) (introns : List IntronRec) :
    (∀ row ∈ spliceai2_processUTR CHR POS REF ALT AG_score DG_score AG_POS AL_POS
        DG_POS DL_POS utr introns,
      (isAcceptorKind row.variantType →
        AG_score ≥ CUTOFF ∧ exonBoundaryHit utr.exons AL_POS = true) ∧
      (isDonorKind row.variantType →
        DG_score ≥ CUTOFF ∧ exonBoundaryHit utr.exons DL_POS = true)) ∧
    (AG_score ≥ CUTOFF → exonBoundaryHit utr.exons AL_POS = false →
      spliceai2_processUTR CHR POS REF ALT AG_score DG_score AG_POS AL_POS
        DG_POS DL_POS utr introns = []) := by
  constructor
  · intro row hrow
    simp only [spliceai2_processUTR] at hrow
    by_cases hadm : CHR ≠ utr.chrom ∨ utr.utrStart > POS ∨ utr.utrEnd < POS
    · rw [if_pos hadm] at hrow
      exact absurd hrow (by simp)
    · rw [if_neg hadm] at hrow
      by_cases hstr : utr.strand = "+"
      · rw [if_pos hstr] at hrow
        by_cases hAG : AG_score ≥ CUTOFF
        · rw [if_pos hAG] at hrow
          by_cases hHitA : ¬ exonBoundaryHit utr.exons AL_POS
          · rw [if_pos hHitA] at hrow
            exact absurd hrow (by simp)
          · rw [if_neg hHitA] at hrow
            have hhitA : exonBoundaryHit utr.exons AL_POS = true := by
              revert hHitA; cases exonBoundaryHit utr.exons AL_POS <;> simp
            rcases List.mem_append.mp hrow with hA | hD
            · have hk := mem_sa2AcceptorPlus_kind _ _ _ _ _ _ _ _ hA
              refine ⟨fun _ => ⟨hAG, hhitA⟩, fun hdk => ?_⟩
              rcases hk with hk | hk <;> rw [hk] at hdk <;>
                exact absurd hdk (by decide)
            · obtain ⟨hB, hDG, hhitD⟩ := mem_guarded_block _ _ _ _ hD
              have hk := mem_sa2DonorPlus_kind _ _ _ _ _ _ _ _ hB
              refine ⟨fun hak => ?_, fun _ => ⟨hDG, hhitD⟩⟩
              rcases hk with hk | hk <;> rw [hk] at hak <;>
                exact absurd hak (by decide)
        · rw [if_neg hAG] at hrow
          obtain ⟨hB, hDG, hhitD⟩ := mem_guarded_block _ _ _ _ hrow
          have hk := mem_sa2DonorPlus_kind _ _ _ _ _ _ _ _ hB
          refine ⟨fun hak => ?_, fun _ => ⟨hDG, hhitD⟩⟩
          rcases hk with hk | hk <;> rw [hk] at hak <;>
            exact absurd hak (by decide)
      · rw [if_neg hstr] at hrow
        by_cases hAG : AG_score ≥ CUTOFF
        · rw [if_pos hAG] at hrow
          by_cases hHitA : ¬ exonBoundaryHit utr.exons AL_POS
          · rw [if_pos hHitA] at hrow
            exact absurd hrow (by simp)
          · rw [if_neg hHitA] at hrow
            have hhitA : exonBoundaryHit utr.exons AL_POS = true := by
              revert hHitA; cases exonBoundaryHit utr.exons AL_POS <;> simp
            rcases List.mem_append.mp hrow with hA | hD
            · have hk := mem_sa2AcceptorMinus_kind _ _ _ _ _ _ _ _ hA
              refine ⟨fun _ => ⟨hAG, hhitA⟩, fun hdk => ?_⟩
              rcases hk with hk | hk <;> rw [hk] at hdk <;>
                exact absurd hdk (by decide)
            · obtain ⟨hB, hDG, hhitD⟩ := mem_guarded_block _ _ _ _ hD
              have hk := mem_sa2DonorMinus_kind _ _ _ _ _ _ _ _ hB
              refine ⟨fun hak => ?_, fun _ => ⟨hDG, hhitD⟩⟩
              rcases hk with hk | hk <;> rw [hk] at hak <;>
                exact absurd hak (by decide)
        · rw [if_neg hAG] at hrow
          obtain ⟨hB, hDG, hhitD⟩ := mem_guarded_block _ _ _ _ hrow
          have hk := mem_sa2DonorMinus_kind _ _ _ _ _ _ _ _ hB
          refine ⟨fun hak => ?_, fun _ => ⟨hDG, hhitD⟩⟩
          rcases hk with hk | hk <;> rw [hk] at hak <;>
            exact absurd hak (by decide)
  · intro hAG hmiss
    simp only [spliceai2_processUTR]
    by_cases hadm : CHR ≠ utr.chrom ∨ utr.utrStart > POS ∨ utr.utrEnd < POS
    · rw [if_pos hadm]
    · rw [if_neg hadm]
      by_cases hstr : utr.strand = "+"
      · rw [if_pos hstr, if_pos hAG, if_pos (by simp [hmiss])]
      · rw [if_neg hstr, if_pos hAG, if_pos (by simp [hmiss])]

/-- C8, counterexample to independence.  Donor conditions fully
satisfied (score 1 passes the cutoff, loss position 10 is an exon
boundary and an intron boundary); acceptor score 1 also passes the
cutoff but its loss position 7 matches no exon boundary.  The claim
says the donor synthetic variant must still be produced; the code emits
nothing for the UTR.  Lowering only the acceptor score below the cutoff
makes the very same donor row appear, showing it was the acceptor exon
test that suppressed it. -/
theorem spliceai2_counterexample :
    spliceai2_processUTR "chr1" 5 ("A".toList) ("G".toList) 1 1 12 7 15 10
        utrC8 [intrC8] = [] ∧
      spliceai2_processUTR "chr1" 5 ("A".toList) ("G".toList) 0 1 12 7 15 10
        utrC8 [intrC8] =
        [{ newPOS := some 10, newREF := "G".toList, newALT := "GTAAGT".toList,
           variantType := "DG_insertion_+" }] := by
  decide

/-- Witness for C8 at a concrete input: applies the suppression half of
the gating theorem at the counterexample numbers. -/
theorem spliceai2_gating_witness :
    spliceai2_processUTR "chr1" 5 ("A".toList) ("G".toList) 1 1 12 7 15 10
      utrC8 [intrC8] = [] :=
  (spliceai2_gating "chr1" 5 ("A".toList) ("G".toList) 1 1 12 7 15 10
    utrC8 [intrC8]).2 (by decide) (by decide)

/-! ## C1 — coordinate-mapper round trip -/

lemma distLoop_plus_pos :
    ∀ (L : List (Int × Int)) (p : Int),
      (∀ x ∈ L, x.1 ≤ x.2) → (∃ x ∈ L, x.1 < p ∧ p < x.2) →
      L.Pairwise (fun a b => a.2 < b.1) →
      1 ≤ distLoop "+" p L := by
  intro L
  induction L with
  | nil =>
      intro p _ hin _
      rcases hin with ⟨x, hx, -⟩
      exact absurd hx (List.not_mem_nil x)
  | cons hd rest ih =>
      obtain ⟨s, e⟩ := hd
      intro p hv hin hsort
      rw [List.pairwise_cons] at hsort
      obtain ⟨hrel, hsort'⟩ := hsort
      have hse := hv (s, e) (List.mem_cons_self _ _)
      dsimp only at hse
      rcases hin with ⟨x, hx, hx1, hx2⟩
      simp only [distLoop]
      rcases List.mem_cons.mp hx with rfl | hxr
      · dsimp only at hx1 hx2
        rw [if_neg (by simp; omega), if_pos (by simp; omega)]
        simp only [if_true]
        omega
      · have hex : e < x.1 := hrel x hxr
        rw [if_pos (by simp; omega)]
        have hrest := ih p (fun y hy => hv y (List.mem_cons_of_mem _ hy))
          ⟨x, hxr, hx1, hx2⟩ hsort'
        omega

lemma genLoop_distLoop_plus :
    ∀ (L : List (Int × Int)) (p : Int) (carry : Int × Int),
      (∀ x ∈ L, x.1 ≤ x.2) → (∃ x ∈ L, x.1 < p ∧ p < x.2) →
      L.Pairwise (fun a b => a.2 < b.1) →
      genLoop "+" L (distLoop "+" p L) carry = p := by
  intro L
  induction L with
  | nil =>
      intro p carry _ hin _
      rcases hin with ⟨x, hx, -⟩
      exact absurd hx (List.not_mem_nil x)
  | cons hd rest ih =>
      obtain ⟨s, e⟩ := hd
      intro p carry hv hin hsort
      rw [List.pairwise_cons] at hsort
      obtain ⟨hrel, hsort'⟩ := hsort
      have hse := hv (s, e) (List.mem_cons_self _ _)
      dsimp only at hse
      rcases hin with ⟨x, hx, hx1, hx2⟩
      rcases List.mem_cons.mp hx with rfl | hxr
      · dsimp only at hx1 hx2
        have hdist : distLoop "+" p ((s, e) :: rest) = p - s := by
          simp only [distLoop]
          rw [if_neg (by simp; omega), if_pos (by simp; omega)]
          simp
        rw [hdist]
        simp only [genLoop]
        rw [if_pos (by omega)]
        simp only [if_true]
        omega
      · have hex : e < x.1 := hrel x hxr
        have hpos := distLoop_plus_pos rest p
          (fun y hy => hv y (List.mem_cons_of_mem _ hy)) ⟨x, hxr, hx1, hx2⟩ hsort'
        have hdist : distLoop "+" p ((s, e) :: rest) =
            (e - s + 1) + distLoop "+" p rest := by
          simp only [distLoop]
          rw [if_pos (by simp; omega)]
        rw [hdist]
        simp only [genLoop]
        rw [if_neg (by omega)]
        have harg : (e - s + 1) + distLoop "+" p rest - (e - s + 1) =
            distLoop "+" p rest := by ring
        rw [harg]
        exact ih p (s, e) (fun y hy => hv y (List.mem_cons_of_mem _ hy))
          ⟨x, hxr, hx1, hx2⟩ hsort'

lemma distLoop_minus_pos :
    ∀ (L : List (Int × Int)) (p : Int),
      (∀ x ∈ L, x.1 ≤ x.2) → (∃ x ∈ L, x.1 < p ∧ p < x.2) →
      L.Pairwise (fun a b => b.2 < a.1) →
      1 ≤ distLoop "-" p L := by
  intro L
  induction L with
  | nil =>
      intro p _ hin _
      rcases hin with ⟨x, hx, -⟩
      exact absurd hx (List.not_mem_nil x)
  | cons hd rest ih =>
      obtain ⟨s, e⟩ := hd
      intro p hv hin hsort
      rw [List.pairwise_cons] at hsort
      obtain ⟨hrel, hsort'⟩ := hsort
      have hse := hv (s, e) (List.mem_cons_self _ _)
      dsimp only at hse
      rcases hin with ⟨x, hx, hx1, hx2⟩
      simp only [distLoop]
      rcases List.mem_cons.mp hx with rfl | hxr
      · dsimp only at hx1 hx2
        rw [if_neg (by simp; omega), if_pos (by simp; omega), if_neg (by simp)]
        omega
      · have hex : x.2 < s := hrel x hxr
        rw [if_pos (by simp; omega)]
        have hrest := ih p (fun y hy => hv y (List.mem_cons_of_mem _ hy))
          ⟨x, hxr, hx1, hx2⟩ hsort'
        omega

lemma genLoop_distLoop_minus :
    ∀ (L : List (Int × Int)) (p : Int) (carry : Int × Int),
      (∀ x ∈ L, x.1 ≤ x.2) → (∃ x ∈ L, x.1 < p ∧ p < x.2) →
      L.Pairwise (fun a b => b.2 < a.1) →
      genLoop "-" L (distLoop "-" p L) carry = p := by
  intro L
  induction L with
  | nil =>
      intro p carry _ hin _
      rcases hin with ⟨x, hx, -⟩
      exact absurd hx (List.not_mem_nil x)
  | cons hd rest ih =>
      obtain ⟨s, e⟩ := hd
      intro p carry hv hin hsort
      rw [List.pairwise_cons] at hsort
      obtain ⟨hrel, hsort'⟩ := hsort
      have hse := hv (s, e) (List.mem_cons_self _ _)
      dsimp only at hse
      rcases hin with ⟨x, hx, hx1, hx2⟩
      rcases List.mem_cons.mp hx with rfl | hxr
      · dsimp only at hx1 hx2
        have hdist : distLoop "-" p ((s, e) :: rest) = e - p := by
          simp only [distLoop]
          rw [if_neg (by simp; omega), if_pos (by simp; omega)]
          simp
        rw [hdist]
        simp only [genLoop]
        rw [if_pos (by omega), if_neg (by simp)]
        omega
      · have hex : x.2 < s := hrel x hxr
        have hpos := distLoop_minus_pos rest p
          (fun y hy => hv y (List.mem_cons_of_mem _ hy)) ⟨x, hxr, hx1, hx2⟩ hsort'
        have hdist : distLoop "-" p ((s, e) :: rest) =
            (e - s + 1) + distLoop "-" p rest := by
          simp only [distLoop]
          rw [if_pos (by simp; omega)]
        rw [hdist]
        simp only [genLoop]
        rw [if_neg (by omega)]
        have harg : (e - s + 1) + distLoop "-" p rest - (e - s + 1) =
            distLoop "-" p rest := by ring
        rw [harg]
        exact ih p (s, e) (fun y hy => hv y (List.mem_cons_of_mem _ hy))
          ⟨x, hxr, hx1, hx2⟩ hsort'

/-- C1.  Round trip of the coordinate mapper: for a list of valid,
non-overlapping exon intervals sorted ascending (hence nonempty once it
contains `p`), on either strand, every genomic position strictly inside
one of the exons maps to a relative distance and back to itself. -/
theorem coordinate_mapper_roundtrip (exons : List (Int × Int)) (strand : String)
    (p : Int) (hstrand : strand = "+" ∨ strand = "-")
    (hsorted : exons.Pairwise (fun a b => a.2 < b.1))
    (hvalid : ∀ x ∈ exons, x.1 ≤ x.2)
    (hinside : ∃ x ∈ exons, x.1 < p ∧ p < x.2) :
    calculate_genomic_position_from_five_cap exons strand
      (calculate_distance_from_five_cap exons strand p) = p := by
  unfold calculate_genomic_position_from_five_cap calculate_distance_from_five_cap
  rcases hstrand with rfl | rfl
  · exact genLoop_distLoop_plus exons p (0, 0) hvalid hinside hsorted
  · refine genLoop_distLoop_minus exons.reverse p (0, 0) ?_ ?_ ?_
    · intro x hx
      exact hvalid x (List.mem_reverse.mp hx)
    · rcases hinside with ⟨x, hx, h1, h2⟩
      exact ⟨x, List.mem_reverse.mpr hx, h1, h2⟩
    · rw [List.pairwise_reverse]
      exact hsorted

/-- Witness for C1 at a concrete input: two exons with an intron gap,
both strands, at interior positions. -/
theorem coordinate_mapper_roundtrip_witness :
    calculate_genomic_position_from_five_cap [(1, 5), (10, 12)] "+"
        (calculate_distance_from_five_cap [(1, 5), (10, 12)] "+" 3) = 3 ∧
      calculate_genomic_position_from_five_cap [(1, 5), (10, 12)] "-"
        (calculate_distance_from_five_cap [(1, 5), (10, 12)] "-" 11) = 11 :=
  ⟨coordinate_mapper_roundtrip [(1, 5), (10, 12)] "+" 3 (Or.inl rfl) (by decide)
      (by decide) ⟨(1, 5), by decide, by decide, by decide⟩,
    coordinate_mapper_roundtrip [(1, 5), (10, 12)] "-" 11 (Or.inr rfl) (by decide)
      (by decide) ⟨(10, 12), by decide, by decide, by decide⟩⟩

end FiveULTRA
